import Mathlib

/-!
Verification development for the hospital bed-management dashboard
(`app.py`).  The program loads a CSV into a pandas DataFrame
(`load_data`), drops rows without a patient, coerces the bed column
to numbers, and then computes bed occupancy, specialty counts,
per-doctor patient counts and a per-row display colour.

The embedding below models a DataFrame as a list of column names plus a
list of rows; a raw (pre-coercion) cell is `Option String` where `none`
is pandas `NaN`, and a loaded cell is `Val` (string, coerced integer, or
missing).  Machine floats only appear in the source as the vehicle for
"number or NaN" in the bed column; beds are whole numbers, so the
numeric domain is modelled as `Int`.
-/

namespace Pizarra

/-- A raw CSV cell: `none` models a missing value (pandas `NaN`). -/
abbrev Cell := Option String

/-- A value of the loaded table: a string cell, a numerically coerced
cell (the `CAMA` column after `pd.to_numeric`), or a missing value. -/
inductive Val where
  | str (v : String)
  | num (n : Int)
  | na
deriving DecidableEq

/-- A raw parsed CSV: column names and rows of raw cells. -/
structure RawDf where
  cols : List String
  rows : List (List Cell)
deriving DecidableEq

/-- A loaded table (the output of `load_data`). -/
structure Df where
  cols : List String
  rows : List (List Val)
deriving DecidableEq

/-- Whitespace test used for trimming (ASCII whitespace). -/
def isSpace (c : Char) : Bool :=
  c == ' ' || c == '\t' || c == '\n' || c == '\r'

/-- Leading/trailing-whitespace removal, `str.strip()`. -/
def trimStr (s : String) : String :=
  ⟨((s.data.dropWhile isSpace).reverse.dropWhile isSpace).reverse⟩

/-- ASCII uppercase of one character. -/
def upperChar (c : Char) : Char :=
  if 97 ≤ c.toNat ∧ c.toNat ≤ 122 then Char.ofNat (c.toNat - 32) else c

/-- ASCII uppercase of a string, `str.upper()`. -/
def upperStr (s : String) : String := ⟨s.data.map upperChar⟩

/-- Decimal digit value of one character, when it is a digit. -/
def digitVal (c : Char) : Option Nat :=
  if 48 ≤ c.toNat ∧ c.toNat ≤ 57 then some (c.toNat - 48) else none

/-- Accumulating decimal parse: fails on any non-digit. -/
def parseNatAux : List Char → Nat → Option Nat
  | [], acc => some acc
  | c :: cs, acc =>
    match digitVal c with
    | some d => parseNatAux cs (acc * 10 + d)
    | none => none

/-- Parse of an optionally signed whole-number literal. -/
def parseIntStr (s : String) : Option Int :=
  match s.data with
  | [] => none
  | '-' :: cs =>
    match cs with
    | [] => none
    | _ => (parseNatAux cs 0).map (fun n => -(n : Int))
  | '+' :: cs =>
    match cs with
    | [] => none
    | _ => (parseNatAux cs 0).map (fun n => (n : Int))
  | cs => (parseNatAux cs 0).map (fun n => (n : Int))

/-- The fixed synonym-rename table of `load_data`
(`df.rename(columns=rename_map)`). -/
def renameCol (c : String) : String :=
  if c = "ESTANCIA HOSPITALARIA" then "ESTANCIA"
  else if c = "INGRESO POR" then "MOTIVO"
  else if c = "FECHA DE INGRESO" then "INGRESO"
  else c

/-- Column-name normalisation of `load_data`:
`df.columns.str.strip().str.upper()` followed by the rename map. -/
def normCols (cols : List String) : List String :=
  cols.map (fun c => renameCol (upperStr (trimStr c)))

/-- Index of the first column with the given name (pandas label lookup). -/
def colIdx : List String → String → Option Nat
  | [], _ => none
  | c :: cs, name => if c = name then some 0 else (colIdx cs name).map (· + 1)

/-- Raw cell of a row under a column name; `none` when the column is
absent or the cell is missing. -/
def rawCell (cols : List String) (row : List Cell) (name : String) : Cell :=
  match colIdx cols name with
  | some i => (row[i]?).join
  | none => none

/-- Loaded cell of a row under a column name. -/
def getVal (cols : List String) (row : List Val) (name : String) : Option Val :=
  match colIdx cols name with
  | some i => row[i]?
  | none => none

/-- Numeric parse of one cell, `pd.to_numeric(_, errors="coerce")` on a
whole number: whitespace-trimmed integer literal, else failure. -/
def toNumeric (s : String) : Option Int := parseIntStr (trimStr s)

/-- Coercion of a raw `CAMA` cell: numbers survive, anything else
becomes missing (`errors="coerce"`). -/
def coerceCell : Cell → Val
  | some s => match toNumeric s with
    | some n => .num n
    | none => .na
  | none => .na

/-- A raw non-`CAMA` cell as a loaded value. -/
def strCell : Cell → Val
  | some s => .str s
  | none => .na

/-- Conversion of one raw row into a loaded row: the `CAMA` column is
numerically coerced, every other column is kept as text. -/
def convertRow : List String → List Cell → List Val
  | c :: cs, x :: xs =>
      (if c = "CAMA" then coerceCell x else strCell x) :: convertRow cs xs
  | _, _ => []

/-- Successful branch of `load_data`: normalise the column names, drop
rows with no `PACIENTE` (only when that column exists), then coerce the
`CAMA` column. -/
def loadOk (raw : RawDf) : Df :=
  let cols := normCols raw.cols
  let kept :=
    if "PACIENTE" ∈ cols then
      raw.rows.filter (fun r => (rawCell cols r "PACIENTE").isSome)
    else raw.rows
  ⟨cols, kept.map (convertRow cols)⟩

/-- The loader `load_data`: its input is the outcome of the remote
fetch-and-parse, and any failure there (the `except` branch) yields the
empty table.  The function is total: it never throws. -/
def load_data : Except String RawDf → Df
  | .ok raw => loadOk raw
  | .error _ => ⟨[], []⟩

/-- Bed number of a loaded row, when present and numeric. -/
def camaOf (cols : List String) (row : List Val) : Option Int :=
  match getVal cols row "CAMA" with
  | some (.num n) => some n
  | _ => none

/-- The configured bed range `set(range(621, 643))`. -/
def rango_camas : Finset Int := Finset.Icc 621 642

/-- The occupied beds `set(df["CAMA"].dropna().astype(int).unique())`:
all distinct integer bed values present in the table. -/
def camas_ocupadas (df : Df) : Finset Int :=
  (df.rows.filterMap (camaOf df.cols)).toFinset

/-- Enumeration of the configured bed range, `range(621, 643)`. -/
def rangoList : List Int := (List.range 22).map (fun i => 621 + (i : Int))

/-- The free beds `sorted(list(rango_camas - camas_ocupadas))`: the set
difference, enumerated and then sorted ascending. -/
def camas_libres (df : Df) : List Int :=
  List.insertionSort (· ≤ ·) (rangoList.filter (fun b => b ∉ camas_ocupadas df))

/-- Whether the pattern is a leading segment of the text. -/
def leadMatch : List Char → List Char → Bool
  | [], _ => true
  | _ :: _, [] => false
  | a :: p, b :: s => a == b && leadMatch p s

/-- Whether the pattern occurs somewhere in the text. -/
def subMatch (p : List Char) : List Char → Bool
  | [] => p.isEmpty
  | c :: s => leadMatch p (c :: s) || subMatch p s

/-- Python-style substring containment, `pat in s`. -/
def strContains (s pat : String) : Bool := subMatch pat.data s.data

/-- Case-insensitive substring containment,
`Series.str.contains(pat, case=False)` on a literal pattern. -/
def containsCI (s pat : String) : Bool := strContains (upperStr s) (upperStr pat)

/-- Row predicate of the specialty counters:
`df["ESP"].str.contains(pat, case=False, na=False)` — a missing or
non-string specialty cell counts as `False`. -/
def espMatches (cols : List String) (row : List Val) (pat : String) : Bool :=
  match getVal cols row "ESP" with
  | some (.str v) => containsCI v pat
  | _ => false

/-- Specialty counter `len(df[df["ESP"].str.contains(pat, case=False, na=False)])`. -/
def esp_count (df : Df) (pat : String) : Nat :=
  (df.rows.filter (fun r => espMatches df.cols r pat)).length

/-- The HEM counter of the dashboard. -/
def hem_count (df : Df) : Nat := esp_count df "HEM"

/-- The ONC counter of the dashboard. -/
def onc_count (df : Df) : Nat := esp_count df "ONC"

/-- Python `str(...)` on an optional cell, as used by
`str(row.get("EVAT", ""))`: a missing column gives `""`, a `NaN` cell
gives `"nan"`. -/
def pyStr : Option Val → String
  | some (.str v) => v
  | some (.num n) => toString n
  | some .na => "nan"
  | none => ""

/-- The row-styling function `estilo_simple`, reduced to the background
colour it chooses (the rest of the returned CSS is constant). -/
def estilo_simple (evat : Option Val) : String :=
  let esp := upperStr (pyStr evat)
  if strContains esp "VERDE" then "#e8f5e9"
  else if strContains esp "ROJO" then "#fce4ec"
  else if strContains esp "AMARILLO" then "#fffde7"
  else "white"

/-- Case-insensitive colour detection on the original field value; the
patterns used by `estilo_simple` are uppercase literals. -/
def hasColor (s pat : String) : Bool := strContains (upperStr s) pat

/-- Row order of `df.sort_values(by="CAMA")`: ascending bed number,
missing beds last. -/
def camaLE (cols : List String) (r1 r2 : List Val) : Bool :=
  match camaOf cols r1, camaOf cols r2 with
  | some a, some b => a ≤ b
  | some _, none => true
  | none, some _ => false
  | none, none => true

/-- Ordering by bed number as a decidable relation. -/
def camaRel (cols : List String) (r1 r2 : List Val) : Prop :=
  camaLE cols r1 r2 = true

instance (cols : List String) : DecidableRel (camaRel cols) :=
  fun r1 r2 => instDecidableEqBool (camaLE cols r1 r2) true

/-- The rows of the rendered patient table: all rows of the loaded
table, sorted by bed number. -/
def rendered_rows (df : Df) : List (List Val) :=
  List.insertionSort (camaRel df.cols) df.rows

/-- The non-missing doctor values of the table, in row order
(`value_counts` drops `NaN` entries). -/
def medicoVals (df : Df) : List String :=
  df.rows.filterMap (fun r =>
    match getVal df.cols r "MEDICO" with
    | some (.str v) => some v
    | some (.num n) => some (toString n)
    | _ => none)

/-- Distinct values in order of first appearance, skipping values
already seen. -/
def uniqFirstAux (seen : List String) : List String → List String
  | [] => []
  | x :: xs =>
    if x ∈ seen then uniqFirstAux seen xs
    else x :: uniqFirstAux (x :: seen) xs

/-- Distinct values in order of first appearance (the key order a pandas
hash table produces before sorting by count). -/
def uniqFirst (l : List String) : List String := uniqFirstAux [] l

/-- The (doctor, count) pairs in first-appearance order, before sorting. -/
def basePairs (df : Df) : List (String × Nat) :=
  (uniqFirst (medicoVals df)).map (fun v => (v, (medicoVals df).count v))

/-- Comparison used to order the doctor-load table: descending count. -/
def descRel (p q : String × Nat) : Prop := q.2 ≤ p.2

instance : DecidableRel descRel := fun p q => Nat.decLe q.2 p.2

instance : IsTotal (String × Nat) descRel := ⟨fun p q => Nat.le_total q.2 p.2⟩

instance : IsTrans (String × Nat) descRel := ⟨fun _ _ _ h1 h2 => Nat.le_trans h2 h1⟩

/-- The doctor-load table `df["MEDICO"].value_counts()`: per-doctor row
counts, sorted by descending count (a stable sort keeps ties in
first-appearance order). -/
def conteo (df : Df) : List (String × Nat) :=
  List.insertionSort descRel (basePairs df)

/-- Whether a loaded row carries a patient name. -/
def patientPresentB (cols : List String) (row : List Val) : Bool :=
  match getVal cols row "PACIENTE" with
  | some (.str _) => true
  | _ => false

/-- Specification-level reading of the specialty predicate: the row has
a specialty string that contains the pattern case-insensitively. -/
def specContains (cols : List String) (row : List Val) (pat : String) : Prop :=
  ∃ v, getVal cols row "ESP" = some (Val.str v) ∧ containsCI v pat = true

/-- Example feed: three patients, one bed outside the configured range
(700), one non-numeric bed, one missing doctor and one missing triage
field. -/
def rawEx : RawDf :=
  ⟨["PACIENTE", "CAMA", "ESP", "EVAT", "MEDICO"],
   [[some "ANA", some "621", some "HEM-A", some "rojo leve", some "DR A"],
    [some "BEN", some "xx", some "onc", none, none],
    [some "CARLA", some "700", some "CARDIO", some "verde", some "DR A"]]⟩

/-- The example feed, loaded. -/
def dfEx : Df := load_data (.ok rawEx)

/-- Example feed whose schema has no patient-name column. -/
def rawNoPat : RawDf := ⟨["CAMA"], [[some "621"]]⟩

/-- The patient-less-schema feed, loaded. -/
def dfNoPat : Df := load_data (.ok rawNoPat)

/-- Example feed with a patient-name column and one row lacking it. -/
def rawPat : RawDf := ⟨["PACIENTE"], [[some "A"], [none]]⟩

/-! Helper lemmas about the embedding. -/

theorem mem_rangoList {b : Int} : b ∈ rangoList ↔ b ∈ rango_camas := by
  have h : rangoList.toFinset = rango_camas := by decide
  rw [← h, List.mem_toFinset]

theorem rangoList_nodup : rangoList.Nodup := by decide

theorem camas_libres_toFinset (df : Df) :
    (camas_libres df).toFinset = rango_camas \ camas_ocupadas df := by
  ext b
  simp only [camas_libres, List.mem_toFinset, List.mem_insertionSort, List.mem_filter,
    Finset.mem_sdiff, mem_rangoList, decide_eq_true_eq]

theorem colIdx_isSome_of_mem {cols : List String} {name : String} (h : name ∈ cols) :
    ∃ i, colIdx cols name = some i := by
  induction cols with
  | nil => simp at h
  | cons c cs ih =>
    by_cases hc : c = name
    · exact ⟨0, by simp [colIdx, hc]⟩
    · rcases List.mem_cons.mp h with h1 | h1
      · exact absurd h1.symm hc
      · obtain ⟨i, hi⟩ := ih h1
        exact ⟨i + 1, by simp [colIdx, hc, hi]⟩

theorem colIdx_get {cols : List String} {name : String} :
    ∀ {i : Nat}, colIdx cols name = some i → cols[i]? = some name := by
  induction cols with
  | nil =>
    intro i h
    simp [colIdx] at h
  | cons c cs ih =>
    intro i h
    rw [colIdx] at h
    split at h
    · rename_i hc
      cases h
      simp [hc]
    · rw [Option.map_eq_some'] at h
      obtain ⟨j, hj, rfl⟩ := h
      simpa using ih hj

theorem convertRow_get {cols : List String} {r : List Cell} {i : Nat} {c : String} {x : Cell}
    (hc : cols[i]? = some c) (hx : r[i]? = some x) :
    (convertRow cols r)[i]? = some (if c = "CAMA" then coerceCell x else strCell x) := by
  induction cols generalizing r i with
  | nil => simp at hc
  | cons c0 cs ih =>
    cases r with
    | nil => simp at hx
    | cons x0 xs =>
      cases i with
      | zero =>
        simp only [List.getElem?_cons_zero, Option.some.injEq] at hc hx
        subst hc; subst hx
        simp [convertRow]
      | succ n =>
        simp only [List.getElem?_cons_succ] at hc hx
        simpa [convertRow] using ih hc hx

theorem filterMap_erase_of_none {α β : Type} [BEq α] [LawfulBEq α] (f : α → Option β) (r : α)
    (h : f r = none) : ∀ l : List α, (l.erase r).filterMap f = l.filterMap f := by
  intro l
  induction l with
  | nil => rfl
  | cons x xs ih =>
    by_cases hx : x = r
    · subst hx
      rw [List.erase_cons_head]
      simp [List.filterMap_cons, h]
    · rw [List.erase_cons_tail (by simpa using hx)]
      simp only [List.filterMap_cons, ih]

theorem mem_uniqFirstAux {x : String} :
    ∀ {l seen : List String}, x ∈ uniqFirstAux seen l ↔ x ∈ l ∧ x ∉ seen := by
  intro l
  induction l with
  | nil => simp [uniqFirstAux]
  | cons y ys ih =>
    intro seen
    by_cases hy : y ∈ seen
    · rw [uniqFirstAux, if_pos hy, ih]
      constructor
      · rintro ⟨h1, h2⟩
        exact ⟨List.mem_cons_of_mem _ h1, h2⟩
      · rintro ⟨h1, h2⟩
        rcases List.mem_cons.mp h1 with rfl | h1
        · exact absurd hy h2
        · exact ⟨h1, h2⟩
    · rw [uniqFirstAux, if_neg hy]
      constructor
      · intro h1
        rcases List.mem_cons.mp h1 with rfl | h1
        · exact ⟨List.mem_cons_self _ _, hy⟩
        · obtain ⟨h2, h3⟩ := ih.mp h1
          have h4 : x ∉ seen := fun hmem => h3 (List.mem_cons_of_mem _ hmem)
          exact ⟨List.mem_cons_of_mem _ h2, h4⟩
      · rintro ⟨h1, h2⟩
        rcases List.mem_cons.mp h1 with rfl | h1
        · exact List.mem_cons_self _ _
        · by_cases hxy : x = y
          · subst hxy
            exact List.mem_cons_self _ _
          · refine List.mem_cons_of_mem _ (ih.mpr ⟨h1, ?_⟩)
            intro h3
            rcases List.mem_cons.mp h3 with h4 | h4
            · exact hxy h4
            · exact h2 h4

theorem nodup_uniqFirstAux : ∀ (l seen : List String), (uniqFirstAux seen l).Nodup := by
  intro l
  induction l with
  | nil => intro seen; simp [uniqFirstAux]
  | cons y ys ih =>
    intro seen
    by_cases hy : y ∈ seen
    · rw [uniqFirstAux, if_pos hy]
      exact ih seen
    · rw [uniqFirstAux, if_neg hy]
      refine List.nodup_cons.mpr ⟨?_, ih (y :: seen)⟩
      intro hmem
      exact (mem_uniqFirstAux.mp hmem).2 (List.mem_cons_self _ _)

theorem mem_uniqFirst {x : String} {l : List String} : x ∈ uniqFirst l ↔ x ∈ l := by
  rw [uniqFirst, mem_uniqFirstAux]
  simp

theorem nodup_uniqFirst (l : List String) : (uniqFirst l).Nodup :=
  nodup_uniqFirstAux l []

theorem sum_counts (l : List String) :
    ((uniqFirst l).map (fun v => l.count v)).sum = l.length := by
  have h1 : (uniqFirst l).toFinset = l.toFinset := by
    ext x
    simp [List.mem_toFinset, mem_uniqFirst]
  calc ((uniqFirst l).map (fun v => l.count v)).sum
      = (uniqFirst l).toFinset.sum (fun v => l.count v) :=
        (List.sum_toFinset _ (nodup_uniqFirst l)).symm
    _ = l.toFinset.sum (fun v => l.count v) := by rw [h1]
    _ = l.length := List.sum_toFinset_count_eq_length l

/-! Claim theorems. -/

/-- C1 (amended): for a loaded table with a bed column, the free-bed set
and the occupied-bed set are disjoint, and their union is the configured
range together with the occupied set (it equals the range itself exactly
when every occupied bed lies inside the range; occupied beds outside
[621, 642] also end up in the union). -/
theorem c1_free_occupied_partition (df : Df) (_hne : df.rows ≠ []) (_hc : "CAMA" ∈ df.cols) :
    (camas_libres df).toFinset ∪ camas_ocupadas df = rango_camas ∪ camas_ocupadas df ∧
    (camas_libres df).toFinset ∩ camas_ocupadas df = ∅ := by
  rw [camas_libres_toFinset]
  exact ⟨Finset.sdiff_union_self_eq_union, Finset.sdiff_inter_self _ _⟩

/-- C1 witness: the partition equations hold on the example table. -/
theorem c1_free_occupied_partition_witness :
    (camas_libres dfEx).toFinset ∪ camas_ocupadas dfEx = rango_camas ∪ camas_ocupadas dfEx ∧
    (camas_libres dfEx).toFinset ∩ camas_ocupadas dfEx = ∅ :=
  c1_free_occupied_partition dfEx (by decide) (by decide)

/-- C1 counterexample: on the example table, whose bed 700 lies outside
the configured range, the union of the free set and the occupied set is
not the range, so the claimed partition fails as stated. -/
theorem c1_counterexample :
    ¬ ((camas_libres dfEx).toFinset ∪ camas_ocupadas dfEx = rango_camas ∧
       (camas_libres dfEx).toFinset ∩ camas_ocupadas dfEx = ∅) := by
  intro h
  have h700 : (700 : Int) ∈ (camas_libres dfEx).toFinset ∪ camas_ocupadas dfEx :=
    Finset.mem_union_right _ (by decide)
  rw [h.1] at h700
  exact absurd h700 (by decide)

/-- C2: the loader never throws (it is a total function); any fetch or
parse failure yields the empty table, and a well-formed input whose
schema lacks the expected patient column is not an error either — every
row is passed through. -/
theorem c2_load_failure_empty (e : String) (raw : RawDf)
    (h : "PACIENTE" ∉ normCols raw.cols) :
    load_data (Except.error e) = ⟨[], []⟩ ∧
    (load_data (Except.error e)).rows = [] ∧
    (load_data (.ok raw)).rows.length = raw.rows.length := by
  refine ⟨rfl, rfl, ?_⟩
  simp [load_data, loadOk, if_neg h]

/-- C2 witness: a failed fetch yields the empty table; the loaded
patient-less-schema feed keeps its single row. -/
theorem c2_load_failure_empty_witness :
    load_data (Except.error "boom") = ⟨[], []⟩ ∧
    (load_data (Except.error "boom")).rows = [] ∧
    (load_data (.ok rawNoPat)).rows.length = rawNoPat.rows.length :=
  c2_load_failure_empty "boom" rawNoPat (by decide)

/-- C3 counterexample: when the input schema has no patient-name column,
`load_data` keeps every row, so the loaded table can contain a row whose
patient-name field is missing — the claim fails as stated. -/
theorem c3_counterexample :
    ¬ (∀ r ∈ dfNoPat.rows, patientPresentB dfNoPat.cols r = true) := by
  decide

/-- C3 (amended): when the loaded table does have a `PACIENTE` column,
no row of the loaded table has an empty or missing patient-name field;
without that column, rows are kept unchanged. -/
theorem c3_no_missing_patient (raw : RawDf)
    (h : "PACIENTE" ∈ (load_data (.ok raw)).cols) :
    ∀ r ∈ (load_data (.ok raw)).rows,
      patientPresentB (load_data (.ok raw)).cols r = true := by
  intro r hr
  have h' : "PACIENTE" ∈ normCols raw.cols := h
  obtain ⟨i, hi⟩ := colIdx_isSome_of_mem h'
  simp only [load_data, loadOk, if_pos h'] at hr ⊢
  obtain ⟨r0, hr0, rfl⟩ := List.mem_map.mp hr
  have hkeep : (rawCell (normCols raw.cols) r0 "PACIENTE").isSome :=
    of_decide_eq_true (by simpa using (List.mem_filter.mp hr0).2)
  obtain ⟨s, hs⟩ := Option.isSome_iff_exists.mp hkeep
  rw [rawCell, hi] at hs
  have hx : r0[i]? = some (some s) := Option.join_eq_some.mp hs
  have hcol : (normCols raw.cols)[i]? = some "PACIENTE" := colIdx_get hi
  have hconv := convertRow_get hcol hx
  simp only [patientPresentB, getVal, hi, hconv]
  simp [strCell]

/-- C3 witness: the feed with a patient column loads to a table whose
surviving row carries its patient name. -/
theorem c3_no_missing_patient_witness :
    patientPresentB (load_data (.ok rawPat)).cols [Val.str "A"] = true :=
  c3_no_missing_patient rawPat (by decide) [Val.str "A"] (by decide)

/-- C4 (amended): the doctor-load pairs sum to the number of rows whose
doctor field is present (`value_counts` silently drops missing doctors,
so rows without a doctor are not counted), are ordered by descending
count, and ties keep first-appearance order (the sort is stable). -/
theorem c4_conteo_aggregation (df : Df) (_hm : "MEDICO" ∈ df.cols) (_hne : df.rows ≠ []) :
    ((conteo df).map Prod.snd).sum = (medicoVals df).length ∧
    List.Pairwise (fun p q : String × Nat => q.2 ≤ p.2) (conteo df) ∧
    (∀ p q : String × Nat, List.Sublist [p, q] (basePairs df) → q.2 ≤ p.2 →
      List.Sublist [p, q] (conteo df)) := by
  refine ⟨?_, ?_, ?_⟩
  · have hperm : List.Perm (conteo df) (basePairs df) := List.perm_insertionSort _ _
    rw [(hperm.map Prod.snd).sum_eq, basePairs, List.map_map]
    exact sum_counts _
  · exact List.sorted_insertionSort descRel (basePairs df)
  · intro p q hsub hle
    exact List.pair_sublist_insertionSort hle hsub

/-- C4 witness: on the example table the counts sum to the number of
rows with a doctor. -/
theorem c4_conteo_aggregation_witness :
    ((conteo dfEx).map Prod.snd).sum = (medicoVals dfEx).length :=
  (c4_conteo_aggregation dfEx (by decide) (by decide)).1

/-- C4 counterexample: the example table has three rows but one of them
has no doctor, so the per-doctor counts sum to 2, not to the total row
count — the claim fails as stated. -/
theorem c4_counterexample :
    ¬ (((conteo dfEx).map Prod.snd).sum = dfEx.rows.length) := by
  decide

/-- C5: a non-numeric bed cell is coerced to a missing value rather than
an error, a row with a missing bed contributes nothing to the occupied
set (removing it leaves the set unchanged), and the row still appears in
the rendered patient table. -/
theorem c5_absent_bed (df : Df) (r : List Val) (hmem : r ∈ df.rows)
    (_hc : "CAMA" ∈ df.cols) (s : String) (hs : toNumeric s = none)
    (habs : camaOf df.cols r = none) :
    coerceCell (some s) = Val.na ∧
    camas_ocupadas df = camas_ocupadas ⟨df.cols, df.rows.erase r⟩ ∧
    r ∈ rendered_rows df := by
  refine ⟨by simp [coerceCell, hs], ?_, ?_⟩
  · show (df.rows.filterMap (camaOf df.cols)).toFinset =
      ((df.rows.erase r).filterMap (camaOf df.cols)).toFinset
    exact congrArg List.toFinset (filterMap_erase_of_none (camaOf df.cols) r habs df.rows).symm
  · exact (List.mem_insertionSort _).mpr hmem

/-- C5 witness: the example row with bed "xx" is coerced to a missing
bed, leaves the occupied set unchanged, and is rendered. -/
theorem c5_absent_bed_witness :
    coerceCell (some "xx") = Val.na ∧
    camas_ocupadas dfEx =
      camas_ocupadas ⟨dfEx.cols,
        dfEx.rows.erase [Val.str "BEN", Val.na, Val.str "onc", Val.na, Val.na]⟩ ∧
    [Val.str "BEN", Val.na, Val.str "onc", Val.na, Val.na] ∈ rendered_rows dfEx :=
  c5_absent_bed dfEx [Val.str "BEN", Val.na, Val.str "onc", Val.na, Val.na]
    (by decide) (by decide) "xx" (by decide) (by decide)

/-- C6: the free-bed sequence is sorted ascending, has no duplicates,
and is a fixed point of re-sorting and of deduplication. -/
theorem c6_free_sorted_nodup (df : Df) (_hne : df.rows ≠ []) (_hc : "CAMA" ∈ df.cols) :
    List.Sorted (· ≤ ·) (camas_libres df) ∧ (camas_libres df).Nodup ∧
    List.insertionSort (fun a b : Int => a ≤ b) (camas_libres df) = camas_libres df ∧
    (camas_libres df).dedup = camas_libres df := by
  have hsorted : List.Sorted (· ≤ ·) (camas_libres df) :=
    List.sorted_insertionSort _ _
  have hnodup : (camas_libres df).Nodup := by
    have hperm : List.Perm (camas_libres df)
        (rangoList.filter (fun b => b ∉ camas_ocupadas df)) :=
      List.perm_insertionSort _ _
    exact hperm.nodup_iff.mpr (List.Nodup.filter _ rangoList_nodup)
  exact ⟨hsorted, hnodup, hsorted.insertionSort_eq, List.dedup_eq_self.mpr hnodup⟩

/-- C6 witness: the properties hold on the example table. -/
theorem c6_free_sorted_nodup_witness :
    List.Sorted (· ≤ ·) (camas_libres dfEx) ∧ (camas_libres dfEx).Nodup ∧
    List.insertionSort (fun a b : Int => a ≤ b) (camas_libres dfEx) = camas_libres dfEx ∧
    (camas_libres dfEx).dedup = camas_libres dfEx :=
  c6_free_sorted_nodup dfEx (by decide) (by decide)

/-- C7: the specialty counter counts exactly the rows whose specialty
field contains the target substring case-insensitively; on the example
table with specialty values "HEM-A", "onc", "CARDIO" the HEM count and
the ONC count are both 1. -/
theorem c7_specialty_count (df : Df) (_hc : "ESP" ∈ df.cols) (_hne : df.rows ≠ [])
    (pat : String) :
    esp_count df pat = df.rows.countP (fun r => espMatches df.cols r pat) ∧
    (∀ r ∈ df.rows, espMatches df.cols r pat = true ↔ specContains df.cols r pat) ∧
    hem_count dfEx = 1 ∧ onc_count dfEx = 1 := by
  refine ⟨?_, ?_, by decide, by decide⟩
  · rw [esp_count, List.countP_eq_length_filter]
  · intro r _
    cases hval : getVal df.cols r "ESP" with
    | none => simp [espMatches, specContains, hval]
    | some v =>
      cases v with
      | str w => simp [espMatches, specContains, hval]
      | num n => simp [espMatches, specContains, hval]
      | na => simp [espMatches, specContains, hval]

/-- C7 witness: the HEM counter of the example table is 1. -/
theorem c7_specialty_count_witness : hem_count dfEx = 1 :=
  (c7_specialty_count dfEx (by decide) (by decide) "HEM").2.2.1

/-- C8: the row display classification is a pure function of the triage
field: a green match gives the green background, a red match (with no
green) gives red, a yellow match (with no green or red) gives yellow,
no match gives the default white, and a missing field gives white; in
particular "rojo leve" maps to red. -/
theorem c8_estilo_category (s : String) :
    (hasColor s "VERDE" = true → estilo_simple (some (Val.str s)) = "#e8f5e9") ∧
    (hasColor s "VERDE" = false → hasColor s "ROJO" = true →
      estilo_simple (some (Val.str s)) = "#fce4ec") ∧
    (hasColor s "VERDE" = false → hasColor s "ROJO" = false →
      hasColor s "AMARILLO" = true → estilo_simple (some (Val.str s)) = "#fffde7") ∧
    (hasColor s "VERDE" = false → hasColor s "ROJO" = false →
      hasColor s "AMARILLO" = false → estilo_simple (some (Val.str s)) = "white") ∧
    estilo_simple none = "white" ∧
    estilo_simple (some Val.na) = "white" ∧
    estilo_simple (some (Val.str "rojo leve")) = "#fce4ec" := by
  refine ⟨?_, ?_, ?_, ?_, by decide, by decide, by decide⟩
  · intro h1
    simp only [hasColor] at h1
    simp [estilo_simple, pyStr, h1]
  · intro h1 h2
    simp only [hasColor] at h1 h2
    simp [estilo_simple, pyStr, h1, h2]
  · intro h1 h2 h3
    simp only [hasColor] at h1 h2 h3
    simp [estilo_simple, pyStr, h1, h2, h3]
  · intro h1 h2 h3
    simp only [hasColor] at h1 h2 h3
    simp [estilo_simple, pyStr, h1, h2, h3]

/-- C8 witness: a field containing VERDE is classified green. -/
theorem c8_estilo_category_witness :
    estilo_simple (some (Val.str "VERDE claro")) = "#e8f5e9" :=
  (c8_estilo_category "VERDE claro").1 (by decide)

/-- C9: every element of the free-bed sequence lies in the configured
inclusive range [621, 642]; bed values outside the range never appear in
it (and the computation is total, so they never cause an error). -/
theorem c9_free_within_range (df : Df) (_hne : df.rows ≠ []) (_hc : "CAMA" ∈ df.cols) :
    ∀ b ∈ camas_libres df, b ∈ rango_camas ∧ 621 ≤ b ∧ b ≤ 642 := by
  intro b hb
  have hmem : b ∈ (camas_libres df).toFinset := List.mem_toFinset.mpr hb
  rw [camas_libres_toFinset] at hmem
  have hr := (Finset.mem_sdiff.mp hmem).1
  have hic := Finset.mem_Icc.mp (by simpa [rango_camas] using hr)
  exact ⟨hr, hic.1, hic.2⟩

/-- C9 witness: free bed 622 of the example table lies in the range. -/
theorem c9_free_within_range_witness :
    (622 : Int) ∈ rango_camas ∧ (621 : Int) ≤ 622 ∧ (622 : Int) ≤ 642 :=
  c9_free_within_range dfEx (by decide) (by decide) 622 (by decide)

/-- C10: when the triage field matches several colours, exactly one
category is assigned, by fixed precedence: green beats red, green beats
yellow, and red beats yellow. -/
theorem c10_color_precedence (s : String) :
    (hasColor s "VERDE" = true → hasColor s "ROJO" = true →
      estilo_simple (some (Val.str s)) = "#e8f5e9") ∧
    (hasColor s "VERDE" = true → hasColor s "AMARILLO" = true →
      estilo_simple (some (Val.str s)) = "#e8f5e9") ∧
    (hasColor s "VERDE" = false → hasColor s "ROJO" = true →
      hasColor s "AMARILLO" = true → estilo_simple (some (Val.str s)) = "#fce4ec") := by
  refine ⟨?_, ?_, ?_⟩
  · intro h1 _
    simp only [hasColor] at h1
    simp [estilo_simple, pyStr, h1]
  · intro h1 _
    simp only [hasColor] at h1
    simp [estilo_simple, pyStr, h1]
  · intro h1 h2 _
    simp only [hasColor] at h1 h2
    simp [estilo_simple, pyStr, h1, h2]

/-- C10 witness: a field matching all three colours is classified
green. -/
theorem c10_color_precedence_witness :
    estilo_simple (some (Val.str "verde rojo amarillo")) = "#e8f5e9" :=
  (c10_color_precedence "verde rojo amarillo").1 (by decide) (by decide)

end Pizarra
